import Mathlib

/-!
Verification of the FHIR resource SVG renderer.

The definitions below are a shallow embedding of the Go source:
`models.go` (data model and `Flatten`), `renderer/text.go` (measuring,
wrapping, truncation), `renderer/icons.go`, `renderer/flags.go`,
`renderer/utils.go`, `renderer/treelines.go`, `renderer/rows.go`,
`renderer/svg.go` and `renderer/config.go`.  Go `float64` values are
modelled as exact rationals (`ℚ`); Go slices as lists.  The font face
from the external `golang.org/x/image` library is modelled by an
advance table `adv : Char → ℚ`, and `MeasureString` follows the spec
("sum of per-glyph advances").
-/

namespace FhirRenderer

/-- `models.Binding`: a value set binding for coded elements. -/
structure Binding where
  strength : String
  valueSet : String
  url : String
deriving Repr, DecidableEq

/-- `models.Extension`: a FHIR extension definition. -/
structure Extension where
  name : String
  url : String
  context : String
  type : String
  cardinality : String
  description : String
deriving Repr, DecidableEq

/-- `models.Element`: a single element in the resource definition, with
nested child elements and extensions.  Go struct fields in source order. -/
inductive Element : Type where
  | mk (name : String) (flags : List String) (cardinality : String)
       (type : String) (typeRef : String) (description : String)
       (usage : String) (notes : String) (binding : Option Binding)
       (elements : List Element) (extensions : List Extension)

def Element.name : Element → String
  | .mk n _ _ _ _ _ _ _ _ _ _ => n

def Element.flags : Element → List String
  | .mk _ f _ _ _ _ _ _ _ _ _ => f

def Element.cardinality : Element → String
  | .mk _ _ c _ _ _ _ _ _ _ _ => c

def Element.type : Element → String
  | .mk _ _ _ t _ _ _ _ _ _ _ => t

def Element.typeRef : Element → String
  | .mk _ _ _ _ r _ _ _ _ _ _ => r

def Element.description : Element → String
  | .mk _ _ _ _ _ d _ _ _ _ _ => d

def Element.usage : Element → String
  | .mk _ _ _ _ _ _ u _ _ _ _ => u

def Element.notes : Element → String
  | .mk _ _ _ _ _ _ _ n _ _ _ => n

def Element.binding : Element → Option Binding
  | .mk _ _ _ _ _ _ _ _ b _ _ => b

def Element.elements : Element → List Element
  | .mk _ _ _ _ _ _ _ _ _ e _ => e

def Element.extensions : Element → List Extension
  | .mk _ _ _ _ _ _ _ _ _ _ x => x

/-- `models.ResourceDefinition`: the root of the input tree. -/
structure ResourceDefinition where
  resourceType : String
  name : String
  flags : List String
  type : String
  description : String
  elements : List Element
  extensions : List Extension

/-- `models.FlatElement`: a flattened element with depth info for rendering. -/
structure FlatElement where
  element : Element
  depth : Nat
  isLast : Bool
  parentLasts : List Bool
  path : String

/-- The `Element` value built for an extension nested under an element
(`flattenElements`, inner loop): name, type, cardinality, description. -/
def extElementNested (ext : Extension) : Element :=
  .mk ext.name [] ext.cardinality ext.type "" ext.description "" "" none [] []

/-- The `Element` value built for a root-level extension (`Flatten`):
name, type and description only (no cardinality). -/
def extElementRoot (ext : Extension) : Element :=
  .mk ext.name [] "" ext.type "" ext.description "" "" none [] []

/-- Rows appended for the extensions of one element
(`flattenElements`, loop `for j, ext := range elem.Extensions`):
`extIsLast := j == len(elem.Extensions)-1 && isLast`. -/
def extensionRows (exts : List Extension) (depth : Nat) (parentLasts : List Bool)
    (path : String) (isLast : Bool) : List FlatElement :=
  match exts with
  | [] => []
  | ext :: rest =>
    { element := extElementNested ext
      depth := depth
      isLast := rest.isEmpty && isLast
      parentLasts := parentLasts
      path := path ++ "." ++ ext.name } :: extensionRows rest depth parentLasts path isLast

/-- `flattenElements` from `models.go`: emits one row per element
(`IsLast = isLast && len(elem.Extensions) == 0`, `ParentLasts` = the
incoming vector), recurses into children with the extended vector, then
appends the element's extension rows.  `isLast` (`i == len(elements)-1`
in Go) is expressed as `rest.isEmpty`. -/
def flattenElements : List Element → Nat → List Bool → String → Bool → List FlatElement
  | [], _, _, _, _ => []
  | .mk n fl card ty tr d u no b els exts :: rest, depth, parentLasts, parentPath, parentIsLast =>
    let e : Element := .mk n fl card ty tr d u no b els exts
    let isLast := rest.isEmpty
    let path := parentPath ++ "." ++ n
    let newParentLasts := parentLasts ++ [parentIsLast]
    let row : FlatElement :=
      { element := e
        depth := depth
        isLast := isLast && exts.isEmpty
        parentLasts := parentLasts
        path := path }
    let childRows :=
      if els.isEmpty then []
      else flattenElements els (depth + 1) newParentLasts path (isLast && exts.isEmpty)
    (row :: childRows ++ extensionRows exts (depth + 1) newParentLasts path isLast)
      ++ flattenElements rest depth parentLasts parentPath parentIsLast
termination_by els _ _ _ _ => sizeOf els
decreasing_by all_goals (simp_wf; try omega)

/-- Rows appended for the root-level extensions (`Flatten`, final loop):
depth 1, `isLast := i == len(r.Extensions)-1`, ancestor vector
`[len(r.Elements) == 0]`, path is the extension's context. -/
def rootExtensionRows (exts : List Extension) (noChildren : Bool) : List FlatElement :=
  match exts with
  | [] => []
  | ext :: rest =>
    { element := extElementRoot ext
      depth := 1
      isLast := rest.isEmpty
      parentLasts := [noChildren]
      path := ext.context } :: rootExtensionRows rest noChildren

/-- `(*ResourceDefinition).Flatten` from `models.go`: root row, then the
flattened children, then the root-level extension rows. -/
def ResourceDefinition.Flatten (r : ResourceDefinition) : List FlatElement :=
  let rootElement : Element := .mk r.name r.flags "" r.type "" r.description "" "" none [] []
  let rootRow : FlatElement :=
    { element := rootElement
      depth := 0
      isLast := r.elements.isEmpty && r.extensions.isEmpty
      parentLasts := []
      path := r.name }
  (rootRow :: flattenElements r.elements 1 [] r.name false)
    ++ rootExtensionRows r.extensions r.elements.isEmpty

/-- Number of nodes (elements) in a forest, each node counted once. -/
def countNodes : List Element → Nat
  | [] => 0
  | .mk _ _ _ _ _ _ _ _ _ els _ :: rest => 1 + countNodes els + countNodes rest
termination_by els => sizeOf els
decreasing_by all_goals (simp_wf; try omega)

/-- Number of extensions in a forest, at every level. -/
def countExtensions : List Element → Nat
  | [] => 0
  | .mk _ _ _ _ _ _ _ _ _ els exts :: rest =>
    exts.length + countExtensions els + countExtensions rest
termination_by els => sizeOf els
decreasing_by all_goals (simp_wf; try omega)

/-! ### Text measurer (`renderer/text.go`)

The font face produced by `NewTextMeasurer` belongs to the external
`golang.org/x/image` library.  Modelled from the spec: `measure(text)`
is "the sum of per-glyph advances for the configured font/size", so a
measurer is an advance table `adv : Char → ℚ` and `MeasureString` sums
it over the characters of the string. -/

/-- `MeasureString`: width of a string, as the sum of per-glyph advances. -/
def MeasureString (adv : Char → ℚ) (s : String) : ℚ :=
  (s.data.map adv).sum

/-- Go's ASCII whitespace as used by `strings.Fields` (restricted to the
ASCII space class; exotic Unicode spaces are not modelled). -/
def isSpaceChar (c : Char) : Bool :=
  c = ' ' || c = '\t' || c = '\n' || c = '\r' || c = '\x0b' || c = '\x0c'

/-- The accumulator loop behind `Fields`: `cur` holds the characters of
the word in progress, in reverse. -/
def fieldsAux (cur : List Char) : List Char → List String
  | [] => if cur.isEmpty then [] else [String.mk cur.reverse]
  | c :: cs =>
    if isSpaceChar c then
      if cur.isEmpty then fieldsAux [] cs
      else String.mk cur.reverse :: fieldsAux [] cs
    else fieldsAux (c :: cur) cs

/-- `strings.Fields`: the maximal whitespace-free words of `s`, in order
(no empty words). -/
def Fields (s : String) : List String :=
  fieldsAux [] s.data

/-- The wrapping loop of `WrapText`: greedily extend `currentLine` with
`" " + word` while the test line still measures within `maxWidth`,
otherwise commit the current line and start a new one with the word.
The committed lines are accumulated in `lines`; at the end the current
line is appended. -/
def wrapLoop (adv : Char → ℚ) (maxWidth : ℚ) (lines : List String) (currentLine : String) :
    List String → List String
  | [] => lines ++ [currentLine]
  | word :: rest =>
    let testLine := currentLine ++ " " ++ word
    if MeasureString adv testLine ≤ maxWidth then
      wrapLoop adv maxWidth lines testLine rest
    else
      wrapLoop adv maxWidth (lines ++ [currentLine]) word rest

/-- `(*TextMeasurer).WrapText` from `renderer/text.go`. -/
def WrapText (adv : Char → ℚ) (text : String) (maxWidth : ℚ) : List String :=
  if text = "" then [""]
  else if MeasureString adv text ≤ maxWidth then [text]
  else
    match Fields text with
    | [] => [""]
    | w :: ws => wrapLoop adv maxWidth [] w ws

/-- The binary search of `TruncateText`: the largest `low` such that the
`low`-rune prefix measures within `availableWidth` (`low`/`high` as in the
Go loop, `mid := (low + high + 1) / 2`). -/
def truncSearch (adv : Char → ℚ) (runes : List Char) (availableWidth : ℚ)
    (low high : Nat) : Nat :=
  if _h : low < high then
    let mid := (low + high + 1) / 2
    if MeasureString adv (String.mk (runes.take mid)) ≤ availableWidth then
      truncSearch adv runes availableWidth mid high
    else
      truncSearch adv runes availableWidth low (mid - 1)
  else low
termination_by high - low
decreasing_by all_goals omega

/-- `(*TextMeasurer).TruncateText` from `renderer/text.go`. -/
def TruncateText (adv : Char → ℚ) (text : String) (maxWidth : ℚ) : String :=
  if text = "" then ""
  else if MeasureString adv text ≤ maxWidth then text
  else
    let ellipsis := "..."
    let ellipsisWidth := MeasureString adv ellipsis
    let availableWidth := maxWidth - ellipsisWidth
    if availableWidth ≤ 0 then ellipsis
    else
      let runes := text.data
      let low := truncSearch adv runes availableWidth 0 runes.length
      if low = 0 then ellipsis
      else String.mk (runes.take low) ++ ellipsis

/-! ### Icon selection (`renderer/icons.go`) -/

/-- Go `strings.HasPrefix`, modelled on the character list (equivalent to
`String.startsWith`, but kernel-computable). -/
def strStartsWith (s pre : String) : Bool :=
  pre.data.isPrefixOf s.data

/-- Go `strings.HasSuffix`, modelled on the character list (equivalent to
`String.endsWith`, but kernel-computable). -/
def strEndsWith (s suf : String) : Bool :=
  suf.data.isSuffixOf s.data

def IconResource : String := "resource"
def IconBackboneElement : String := "backbone"
def IconElement : String := "element"
def IconExtension : String := "extension"
def IconChoice : String := "choice"
def IconReference : String := "reference"

/-- `GetIconTypeForElement` from `renderer/icons.go`: root first, then the
switch on the declared type with the suffix/Reference/children checks in
the default branch. -/
def GetIconTypeForElement (elementType : String) (isRoot : Bool) (hasChildren : Bool) :
    String :=
  if isRoot then IconResource
  else if elementType = "BackboneElement" then IconBackboneElement
  else if elementType = "Extension" then IconExtension
  else if strEndsWith elementType "[x]" then IconChoice
  else if strStartsWith elementType "Reference" then IconReference
  else if hasChildren then IconBackboneElement
  else IconElement

/-! ### XML escaping (`renderer/utils.go`) -/

/-- The apostrophe character, U+0027. -/
def aposChar : Char := Char.ofNat 39

/-- One replacement step of the `strings.NewReplacer` in `escapeXML`
(all patterns are single characters, so a per-character map is exact). -/
def escapeChar (c : Char) : String :=
  if c = '&' then "&amp;"
  else if c = '<' then "&lt;"
  else if c = '>' then "&gt;"
  else if c = '"' then "&quot;"
  else if c = aposChar then "&apos;"
  else String.mk [c]

/-- `escapeXML` from `renderer/utils.go`. -/
def escapeXML (s : String) : String :=
  String.join (s.data.map escapeChar)

/-! ### Layout constants (`renderer/config.go` and the renderer constants
file): Go float literals as exact rationals. -/

def RowTopMargin : ℚ := 4
def RowBottomMargin : ℚ := 6
def MinNameColWidth : ℚ := 180
def MaxNameColWidth : ℚ := 300
def FooterHeight : ℚ := 24
def UnusedElementLabel : String := "Not used"

def FontRenderingBuffer : ℚ := 15
def BoldTextWidthFactor : ℚ := 9/10
def HeaderTextMarginY : ℚ := 6
def TextVerticalOffset : ℚ := 4
def TitleVerticalOffset : ℚ := 5
def BorderStrokeWidth : ℚ := 1/2
def IconTextGap : ℚ := 4
def IconPaddingRight : ℚ := 8
def IconSpaceInMeasurement : ℚ := 12
def FlagCharWidth : ℚ := 7
def FlagBoxPadding : ℚ := 6
def FlagGap : ℚ := 4
def FlagBoxTextOffset : ℚ := 3
def TreeHorizontalGap : ℚ := 2
def IconLineVerticalOffset : ℚ := 2
def SVGHeightPadding : ℚ := 2

/-- `TreeLineStyle` from `renderer/treelines.go`. -/
structure TreeLineStyle where
  Color : String
  Width : ℚ
  IndentPx : ℚ

/-- `DefaultTreeStyle` from `renderer/treelines.go`. -/
def DefaultTreeStyle : TreeLineStyle :=
  { Color := "#CCCCCC", Width := 1, IndentPx := 20 }

/-- `SVGConfig` from `renderer/config.go`.  The `textMeasurer` pointer
(initialized during render) is modelled by the explicit `adv` argument
threaded through the rendering functions. -/
structure SVGConfig where
  FontFamily : String
  FontSize : ℚ
  HeaderFontSize : ℚ
  MinRowHeight : ℚ
  LineHeight : ℚ
  HeaderHeight : ℚ
  TitleHeight : ℚ
  IconSize : ℚ
  Padding : ℚ
  TreeStyle : TreeLineStyle
  NameColWidth : ℚ
  FlagsColWidth : ℚ
  CardinalityColWidth : ℚ
  TypeColWidth : ℚ
  DescriptionColWidth : ℚ
  HeaderBgColor : String
  HeaderTextColor : String
  RowBgColor : String
  AltRowBgColor : String
  BorderColor : String
  LinkColor : String
  TextColor : String
  NotUsedColor : String
  TodoColor : String
  CompressedResource : String

/-- `DefaultConfig` from `renderer/config.go`. -/
def DefaultConfig : SVGConfig :=
  { FontFamily := "Arial, sans-serif"
    FontSize := 12
    HeaderFontSize := 13
    MinRowHeight := 26
    LineHeight := 16
    HeaderHeight := 28
    TitleHeight := 32
    IconSize := 14
    Padding := 8
    TreeStyle := DefaultTreeStyle
    NameColWidth := 180
    FlagsColWidth := 50
    CardinalityColWidth := 55
    TypeColWidth := 220
    DescriptionColWidth := 400
    HeaderBgColor := "#F0F0F0"
    HeaderTextColor := "#333333"
    RowBgColor := "#FFFFFF"
    AltRowBgColor := "#F8F8F8"
    BorderColor := "#CCCCCC"
    LinkColor := "#005EB8"
    TextColor := "#333333"
    NotUsedColor := "#999999"
    TodoColor := "#FF6600"
    CompressedResource := "" }

/-! ### Number formatting

Models of Go's `fmt` float verbs on exact rationals: `%.0f`, `%.1f` and
`%f` round half-to-even at the last kept digit. -/

/-- Round to the nearest integer, ties to even (Go `fmt` rounding). -/
def roundHalfEven (q : ℚ) : ℤ :=
  let fl := ⌊q⌋
  let frac := q - (fl : ℚ)
  if frac < 1/2 then fl
  else if 1/2 < frac then fl + 1
  else if fl % 2 = 0 then fl else fl + 1

/-- Left-pad with zeros to width `w`. -/
def padZeros (s : String) (w : Nat) : String :=
  String.mk (List.replicate (w - s.length) '0') ++ s

/-- Fixed-point decimal rendering with `digits` fractional digits. -/
def fmtFixed (q : ℚ) (digits : Nat) : String :=
  let n := roundHalfEven (q * ((10 : ℚ) ^ digits))
  let sign := if n < 0 then "-" else ""
  let a := n.natAbs
  let scale := (10 : ℕ) ^ digits
  if digits = 0 then sign ++ toString a
  else sign ++ toString (a / scale) ++ "." ++ padZeros (toString (a % scale)) digits

/-- Go `%.0f`. -/
def fmtF0 (q : ℚ) : String := fmtFixed q 0

/-- Go `%.1f`. -/
def fmtF1 (q : ℚ) : String := fmtFixed q 1

/-- Go `%f` (six fractional digits). -/
def fmtF (q : ℚ) : String := fmtFixed q 6

/-! ### Tree-line geometry (`renderer/treelines.go`) -/

/-- One `<line .../>` element with `%f` coordinates, as produced by the
`fmt.Sprintf` template shared by all segments in `RenderTreeLines`. -/
def treeLineSeg (x1 y1 x2 y2 : ℚ) (color : String) (width : ℚ) : String :=
  "<line x1=\"" ++ fmtF x1 ++ "\" y1=\"" ++ fmtF y1 ++ "\" x2=\"" ++ fmtF x2 ++
    "\" y2=\"" ++ fmtF y2 ++ "\" stroke=\"" ++ color ++ "\" stroke-width=\"" ++
    fmtF width ++ "\"/>"

/-- `RenderTreeLines` from `renderer/treelines.go`: no lines at depth 0;
vertical continuation lines for ancestors `i < depth-1` that were not
last (guarded by `i < len(parentLasts)`), then the elbow/through
connector, then the horizontal segment. -/
def RenderTreeLines (x y rowHeight firstLineY : ℚ) (depth : Nat)
    (parentLasts : List Bool) (isLast : Bool) (style : TreeLineStyle) : String :=
  if depth = 0 then ""
  else
    let verticals := String.join <| (List.range (depth - 1)).map fun i =>
      if i < parentLasts.length && !(parentLasts.getD i true) then
        let lineX := x + (i : ℚ) * style.IndentPx + style.IndentPx / 2
        treeLineSeg lineX y lineX (y + rowHeight) style.Color style.Width
      else ""
    let connectorX := x + ((depth - 1 : Nat) : ℚ) * style.IndentPx + style.IndentPx / 2
    let connector :=
      if isLast then
        treeLineSeg connectorX y connectorX firstLineY style.Color style.Width
      else
        treeLineSeg connectorX y connectorX (y + rowHeight) style.Color style.Width
    let horizontalEndX := x + (depth : ℚ) * style.IndentPx - TreeHorizontalGap
    let horizontal :=
      treeLineSeg connectorX firstLineY horizontalEndX firstLineY style.Color style.Width
    verticals ++ connector ++ horizontal

/-! ### Icon rendering (`renderer/icons.go`) -/

/-- `renderFolderIcon`. -/
def renderFolderIcon (x y size : ℚ) (color : String) (filled : Bool) : String :=
  let w := size * (9/10)
  let h := size * (7/10)
  let tabW := w * (4/10)
  let tabH := h * (2/10)
  let fillColor := if !filled then "#FFFFFF" else color
  let svg :=
    "<g transform=\"translate(" ++ fmtF x ++ "," ++ fmtF y ++ ")\">\n    <path d=\"M0," ++
      fmtF tabH ++ " L0," ++ fmtF h ++ " L" ++ fmtF w ++ "," ++ fmtF h ++ " L" ++
      fmtF w ++ ",0 L" ++ fmtF tabW ++ ",0 L" ++ fmtF tabW ++ "," ++ fmtF tabH ++
      " L0," ++ fmtF tabH ++ " Z\"\n          fill=\"" ++ fillColor ++ "\" stroke=\"" ++
      color ++ "\" stroke-width=\"1\"/>"
  let svg :=
    if !filled then
      svg ++ "<circle cx=\"" ++ fmtF (w / 2) ++ "\" cy=\"" ++ fmtF (h * (6/10)) ++
        "\" r=\"" ++ fmtF (size * (12/100)) ++ "\" fill=\"" ++ color ++ "\"/>"
    else svg
  svg ++ "</g>"

/-- `renderDiamondIcon`. -/
def renderDiamondIcon (x y size : ℚ) (color : String) : String :=
  let half := size / 2
  "<polygon points=\"" ++ fmtF (x + half) ++ "," ++ fmtF y ++ " " ++
    fmtF (x + size) ++ "," ++ fmtF (y + half) ++ " " ++
    fmtF (x + half) ++ "," ++ fmtF (y + size) ++ " " ++
    fmtF x ++ "," ++ fmtF (y + half) ++ "\"\n        fill=\"" ++ color ++
    "\" stroke=\"" ++ color ++ "\" stroke-width=\"0.5\"/>"

/-- `renderExtensionIcon`. -/
def renderExtensionIcon (x y size : ℚ) (color : String) : String :=
  let cx := x + size / 2
  let cy := y + size / 2
  let r := size / 2
  "<g>\n    <circle cx=\"" ++ fmtF cx ++ "\" cy=\"" ++ fmtF cy ++ "\" r=\"" ++ fmtF r ++
    "\" fill=\"" ++ color ++ "\"/>\n    <text x=\"" ++ fmtF cx ++ "\" y=\"" ++ fmtF cy ++
    "\" fill=\"white\" font-family=\"Arial\" font-size=\"" ++ fmtF (size * (6/10)) ++
    "\"\n          text-anchor=\"middle\" dominant-baseline=\"central\" font-weight=\"bold\">E</text>\n</g>"

/-- `renderChoiceIcon`. -/
def renderChoiceIcon (x y size : ℚ) (color : String) : String :=
  let cx := x + size / 2
  let cy := y + size / 2
  let r := size / 2
  "<g>\n    <circle cx=\"" ++ fmtF cx ++ "\" cy=\"" ++ fmtF cy ++ "\" r=\"" ++ fmtF r ++
    "\" fill=\"" ++ color ++ "\"/>\n    <line x1=\"" ++ fmtF cx ++ "\" y1=\"" ++
    fmtF (cy - r * (5/10)) ++ "\" x2=\"" ++ fmtF cx ++ "\" y2=\"" ++
    fmtF (cy + r * (5/10)) ++ "\" stroke=\"white\" stroke-width=\"1.5\"/>\n</g>"

/-- `renderReferenceIcon`. -/
def renderReferenceIcon (x y size : ℚ) (color : String) : String :=
  let arrowSize := size * (8/10)
  let startX := x + size * (1/10)
  let midY := y + size / 2
  "<g>\n    <line x1=\"" ++ fmtF startX ++ "\" y1=\"" ++ fmtF midY ++ "\" x2=\"" ++
    fmtF (startX + arrowSize * (6/10)) ++ "\" y2=\"" ++ fmtF midY ++ "\" stroke=\"" ++
    color ++ "\" stroke-width=\"2\"/>\n    <polygon points=\"" ++
    fmtF (startX + arrowSize * (5/10)) ++ "," ++ fmtF (midY - arrowSize * (3/10)) ++ " " ++
    fmtF (startX + arrowSize) ++ "," ++ fmtF midY ++ " " ++
    fmtF (startX + arrowSize * (5/10)) ++ "," ++ fmtF (midY + arrowSize * (3/10)) ++
    "\" fill=\"" ++ color ++ "\"/>\n</g>"

/-- `RenderIcon` from `renderer/icons.go`. -/
def RenderIcon (iconType : String) (x y size : ℚ) : String :=
  if iconType = IconResource then renderFolderIcon x y size "#FDB813" true
  else if iconType = IconBackboneElement then renderFolderIcon x y size "#FDB813" false
  else if iconType = IconElement then renderDiamondIcon x y size "#005EB8"
  else if iconType = IconExtension then renderExtensionIcon x y size "#FF8C00"
  else if iconType = IconChoice then renderChoiceIcon x y size "#28A745"
  else if iconType = IconReference then renderReferenceIcon x y size "#005EB8"
  else renderDiamondIcon x y size "#005EB8"

/-! ### Flags (`renderer/flags.go`) -/

/-- The `switch flag` of `renderFlags`: display text and whether the flag
needs a box. -/
def flagDisplay (flag : String) : String × Bool :=
  if flag = "S" then ("Σ", false)
  else if flag = "?!" then ("?!Σ", false)
  else if flag = "I" then ("I", false)
  else if flag = "TU" then (flag, true)
  else if flag = "N" then (flag, true)
  else (flag, false)

/-- The flag loop of `renderFlags`, advancing `x`.  Go's `len(displayFlag)`
is the UTF-8 byte length. -/
def renderFlagsLoop (config : SVGConfig) (x : ℚ) : List String → String
  | [] => ""
  | flag :: rest =>
    let (displayFlag, needsBox) := flagDisplay flag
    if needsBox then
      let boxWidth := (displayFlag.utf8ByteSize : ℚ) * FlagCharWidth + FlagBoxPadding
      "<rect x=\"" ++ fmtF0 x ++ "\" y=\"-8\" width=\"" ++ fmtF0 boxWidth ++
        "\" height=\"14\" fill=\"none\" stroke=\"" ++ config.BorderColor ++ "\" rx=\"2\"/>" ++
      "<text x=\"" ++ fmtF0 (x + FlagBoxTextOffset) ++ "\" y=\"2\" class=\"flag-box\">" ++
        escapeXML displayFlag ++ "</text>" ++
      renderFlagsLoop config (x + boxWidth + FlagGap) rest
    else
      "<text x=\"" ++ fmtF0 x ++ "\" y=\"2\" class=\"flag-box\">" ++
        escapeXML displayFlag ++ "</text>" ++
      renderFlagsLoop config (x + (displayFlag.utf8ByteSize : ℚ) * FlagCharWidth + FlagGap) rest

/-- `renderFlags` from `renderer/flags.go`. -/
def renderFlags (flags : List String) (config : SVGConfig) : String :=
  if flags.isEmpty then "" else renderFlagsLoop config 0 flags

/-! ### Row data and row rendering (`renderer/rows.go`) -/

/-- `RowData` from `renderer/rows.go`: pre-calculated data for one row. -/
structure RowData where
  Element : FlatElement
  NameLines : List String
  TypeLines : List String
  DescLines : List String
  RowHeight : ℚ
  IsRoot : Bool
  IsAlt : Bool

/-- The header cells of `renderHeaderRow` (name, width). -/
def headerCells (config : SVGConfig) : List (String × ℚ) :=
  [("Name", config.NameColWidth),
   ("Flags", config.FlagsColWidth),
   ("Card.", config.CardinalityColWidth),
   ("Type", config.TypeColWidth),
   ("Description & Constraints", config.DescriptionColWidth)]

/-- The header loop of `renderHeaderRow`: text for every cell, separator
line after every cell but the last. -/
def renderHeaderCells (config : SVGConfig) (y textY : ℚ) :
    ℚ → List (String × ℚ) → String
  | _, [] => ""
  | x, (hname, hwidth) :: rest =>
    let cell := "<text x=\"" ++ fmtF0 (x + HeaderTextMarginY) ++ "\" y=\"" ++ fmtF0 textY ++
      "\" class=\"header-text\">" ++ escapeXML hname ++ "</text>\n"
    let x2 := x + hwidth
    let sep :=
      if rest.isEmpty then ""
      else "<line x1=\"" ++ fmtF0 x2 ++ "\" y1=\"" ++ fmtF0 y ++ "\" x2=\"" ++ fmtF0 x2 ++
        "\" y2=\"" ++ fmtF0 (y + config.HeaderHeight) ++ "\" stroke=\"" ++
        config.BorderColor ++ "\"/>\n"
    cell ++ sep ++ renderHeaderCells config y textY x2 rest

/-- `renderHeaderRow` from `renderer/rows.go`. -/
def renderHeaderRow (config : SVGConfig) (y totalWidth : ℚ) : String :=
  "<rect x=\"0\" y=\"" ++ fmtF0 y ++ "\" width=\"" ++ fmtF0 totalWidth ++ "\" height=\"" ++
    fmtF0 config.HeaderHeight ++ "\" fill=\"" ++ config.HeaderBgColor ++ "\" stroke=\"" ++
    config.BorderColor ++ "\"/>\n" ++
  renderHeaderCells config y (y + config.HeaderHeight / 2 + TitleVerticalOffset)
    config.Padding (headerCells config)

/-- `renderRowBackground`. -/
def renderRowBackground (row : RowData) (y totalWidth : ℚ) (config : SVGConfig) : String :=
  let bgColor := if row.IsAlt then config.AltRowBgColor else config.RowBgColor
  "<rect x=\"0\" y=\"" ++ fmtF0 y ++ "\" width=\"" ++ fmtF0 totalWidth ++ "\" height=\"" ++
    fmtF0 row.RowHeight ++ "\" fill=\"" ++ bgColor ++ "\"/>\n"

/-- `renderRowBorder`. -/
def renderRowBorder (y rowHeight totalWidth : ℚ) (config : SVGConfig) : String :=
  "<line x1=\"0\" y1=\"" ++ fmtF0 (y + rowHeight) ++ "\" x2=\"" ++ fmtF0 totalWidth ++
    "\" y2=\"" ++ fmtF0 (y + rowHeight) ++ "\" stroke=\"" ++ config.BorderColor ++
    "\" stroke-width=\"" ++ fmtF1 BorderStrokeWidth ++ "\"/>\n"

/-- `renderColumnSeparator`. -/
def renderColumnSeparator (x y rowHeight : ℚ) (config : SVGConfig) : String :=
  "<line x1=\"" ++ fmtF0 x ++ "\" y1=\"" ++ fmtF0 y ++ "\" x2=\"" ++ fmtF0 x ++
    "\" y2=\"" ++ fmtF0 (y + rowHeight) ++ "\" stroke=\"" ++ config.BorderColor ++ "\"/>\n"

/-- `renderTreeAndIcon`: tree lines, then the icon chosen by
`GetIconTypeForElement`. -/
def renderTreeAndIcon (row : RowData) (x y firstLineCenterY : ℚ) (config : SVGConfig) :
    String :=
  let fe := row.Element
  let treeLines := RenderTreeLines x y row.RowHeight firstLineCenterY fe.depth
    fe.parentLasts fe.isLast config.TreeStyle
  let iconX := x + (fe.depth : ℚ) * config.TreeStyle.IndentPx
  let iconY := firstLineCenterY - config.IconSize / 2
  let hasChildren := !fe.element.elements.isEmpty
  let iconType := GetIconTypeForElement fe.element.type row.IsRoot hasChildren
  treeLines ++ RenderIcon iconType iconX iconY config.IconSize

/-- Multi-line text loop shared by the name column: one `<text>` element
per line at `baseTextY + i*LineHeight`. -/
def renderNameLines (lines : List String) (nameX baseTextY : ℚ) (textClass : String)
    (config : SVGConfig) : String :=
  String.join <| lines.enum.map fun (i, line) =>
    "<text x=\"" ++ fmtF0 nameX ++ "\" y=\"" ++ fmtF0 (baseTextY + (i : ℚ) * config.LineHeight) ++
      "\" class=\"" ++ textClass ++ "\">" ++ escapeXML line ++ "</text>\n"

/-- `renderNameColumn`. -/
def renderNameColumn (row : RowData) (x baseTextY : ℚ) (config : SVGConfig) : String :=
  let fe := row.Element
  let nameX := x + (fe.depth : ℚ) * config.TreeStyle.IndentPx + config.IconSize + IconTextGap
  let textClass := if fe.element.usage = "not-used" then "not-used" else "link-text"
  "<g clip-path=\"url(#clip-name)\">\n" ++
    renderNameLines row.NameLines nameX baseTextY textClass config ++ "</g>\n"

/-- `renderFlagsColumn`. -/
def renderFlagsColumn (row : RowData) (x y : ℚ) (config : SVGConfig) : String :=
  let flagsStr := renderFlags row.Element.element.flags config
  let flagsY := y + row.RowHeight / 2
  "<g clip-path=\"url(#clip-flags)\" transform=\"translate(" ++ fmtF0 (x + config.Padding) ++
    ", " ++ fmtF0 flagsY ++ ")\">" ++ flagsStr ++ "</g>\n"

/-- `renderCardinalityColumn`. -/
def renderCardinalityColumn (row : RowData) (x y : ℚ) (config : SVGConfig) : String :=
  let cardY := y + row.RowHeight / 2 + TextVerticalOffset
  "<g clip-path=\"url(#clip-card)\"><text x=\"" ++ fmtF0 (x + config.Padding) ++ "\" y=\"" ++
    fmtF0 cardY ++ "\" class=\"cell-text\">" ++ escapeXML row.Element.element.cardinality ++
    "</text></g>\n"

/-- The line loop of `renderTypeColumn`: the first line is hyperlinked
when a `TypeRef` is present. -/
def renderTypeLines (fe : FlatElement) (lines : List String) (x baseTextY : ℚ)
    (config : SVGConfig) : String :=
  String.join <| lines.enum.map fun (i, line) =>
    let lineY := baseTextY + (i : ℚ) * config.LineHeight
    if fe.element.typeRef ≠ "" ∧ i = 0 then
      "<a xlink:href=\"" ++ escapeXML fe.element.typeRef ++ "\" target=\"_blank\"><text x=\"" ++
        fmtF0 (x + config.Padding) ++ "\" y=\"" ++ fmtF0 lineY ++ "\" class=\"link-text\">" ++
        escapeXML line ++ "</text></a>\n"
    else
      "<text x=\"" ++ fmtF0 (x + config.Padding) ++ "\" y=\"" ++ fmtF0 lineY ++
        "\" class=\"link-text\">" ++ escapeXML line ++ "</text>\n"

/-- `renderTypeColumn`. -/
def renderTypeColumn (row : RowData) (x baseTextY : ℚ) (config : SVGConfig) : String :=
  "<g clip-path=\"url(#clip-type)\">\n" ++
    renderTypeLines row.Element row.TypeLines x baseTextY config ++ "</g>\n"

/-- `renderDescriptionColumn`: class per usage, one `<text>` per line. -/
def renderDescriptionColumn (row : RowData) (x baseTextY : ℚ) (config : SVGConfig) : String :=
  let fe := row.Element
  let descClass :=
    if fe.element.usage = "not-used" then "not-used"
    else if fe.element.usage = "todo" then "todo"
    else "cell-text"
  String.join <| row.DescLines.enum.map fun (i, line) =>
    "<text x=\"" ++ fmtF0 (x + config.Padding) ++ "\" y=\"" ++
      fmtF0 (baseTextY + (i : ℚ) * config.LineHeight) ++ "\" class=\"" ++ descClass ++
      "\">" ++ escapeXML line ++ "</text>\n"

/-- `renderDataRowWrapped` from `renderer/rows.go`: background, border,
tree+icon, name, then separator/content for the four remaining columns. -/
def renderDataRowWrapped (row : RowData) (config : SVGConfig) (y totalWidth : ℚ) : String :=
  let x0 := config.Padding
  let baseTextY := y + RowTopMargin + config.FontSize
  let firstLineCenterY := y + RowTopMargin + config.FontSize / 2
  let x1 := x0 + config.NameColWidth
  let x2 := x1 + config.FlagsColWidth
  let x3 := x2 + config.CardinalityColWidth
  let x4 := x3 + config.TypeColWidth
  renderRowBackground row y totalWidth config ++
  renderRowBorder y row.RowHeight totalWidth config ++
  renderTreeAndIcon row x0 y firstLineCenterY config ++
  renderNameColumn row x0 baseTextY config ++
  renderColumnSeparator x1 y row.RowHeight config ++
  renderFlagsColumn row x1 y config ++
  renderColumnSeparator x2 y row.RowHeight config ++
  renderCardinalityColumn row x2 y config ++
  renderColumnSeparator x3 y row.RowHeight config ++
  renderTypeColumn row x3 baseTextY config ++
  renderColumnSeparator x4 y row.RowHeight config ++
  renderDescriptionColumn row x4 baseTextY config

/-! ### Layout engine and SVG assembly (`renderer/svg.go`) -/

/-- `ColumnWidths` from `renderer/svg.go` (`Type` is a Lean keyword, so
that field is called `TypeCol` here, and `Description` is `DescCol` for
symmetry with the Go field order). -/
structure ColumnWidths where
  Name : ℚ
  Flags : ℚ
  Cardinality : ℚ
  TypeCol : ℚ
  DescCol : ℚ

/-- `(ColumnWidths).Total`: the sum of all column widths. -/
def ColumnWidths.Total (cw : ColumnWidths) : ℚ :=
  cw.Name + cw.Flags + cw.Cardinality + cw.TypeCol + cw.DescCol

/-- `calculateNameColumnWidth`: running maximum of
`indent + iconSize + IconSpaceInMeasurement + measure(name)` over all
flattened rows, seeded with the root name's width, then padded and
clamped into `[MinNameColWidth, MaxNameColWidth]`. -/
def calculateNameColumnWidth (adv : Char → ℚ) (resource : ResourceDefinition)
    (config : SVGConfig) : ℚ :=
  let flatElements := resource.Flatten
  let maxNameWidth := flatElements.foldl
    (fun maxW fe =>
      let indentWidth := (fe.depth : ℚ) * config.TreeStyle.IndentPx
      let nameWidth := indentWidth + config.IconSize + IconSpaceInMeasurement +
        MeasureString adv fe.element.name
      if nameWidth > maxW then nameWidth else maxW)
    (MeasureString adv resource.name)
  let width := maxNameWidth + config.Padding * 2
  let width := if width < MinNameColWidth then MinNameColWidth else width
  if width > MaxNameColWidth then MaxNameColWidth else width

/-- `buildDescriptionText` from `renderer/svg.go`: description, the
"not-used"/"todo" adjustments, then the notes suffix. -/
def buildDescriptionText (fe : FlatElement) : String × Bool :=
  let descText := fe.element.description
  let (descText, isBold) :=
    if fe.element.usage = "not-used" then
      (if descText = "" then UnusedElementLabel else descText, false)
    else if fe.element.usage = "todo" then
      (if strStartsWith descText "TODO" then descText else "TODO: " ++ descText, true)
    else (descText, false)
  let descText :=
    if fe.element.notes ≠ "" ∧ fe.element.usage ≠ "not-used" then
      (if descText ≠ "" then descText ++ " - " else descText) ++ fe.element.notes
    else descText
  (descText, isBold)

/-- `calculateRowHeight`: max line count over the three wrapped cells,
times the line height, plus margins, floored at `MinRowHeight`. -/
def calculateRowHeight (row : RowData) (config : SVGConfig) : ℚ :=
  let maxLines := row.NameLines.length
  let maxLines := if row.TypeLines.length > maxLines then row.TypeLines.length else maxLines
  let maxLines := if row.DescLines.length > maxLines then row.DescLines.length else maxLines
  let height := RowTopMargin + (maxLines : ℚ) * config.LineHeight + RowBottomMargin
  if height < config.MinRowHeight then config.MinRowHeight else height

/-- `prepareRow`: available widths per column, conditional name wrapping,
type and description wrapping (bold width shrink), then the row height. -/
def prepareRow (adv : Char → ℚ) (fe : FlatElement) (index : Nat) (config : SVGConfig) :
    RowData :=
  let nameIndent := (fe.depth : ℚ) * config.TreeStyle.IndentPx + config.IconSize +
    IconPaddingRight
  let availableNameWidth := config.NameColWidth - nameIndent - config.Padding -
    FontRenderingBuffer
  let availableTypeWidth := config.TypeColWidth - config.Padding * 2 - FontRenderingBuffer
  let availableDescWidth := config.DescriptionColWidth - config.Padding * 2 -
    FontRenderingBuffer
  let nameLines :=
    if MeasureString adv fe.element.name > availableNameWidth then
      WrapText adv fe.element.name availableNameWidth
    else [fe.element.name]
  let typeLines := WrapText adv fe.element.type availableTypeWidth
  let (descText, isBold) := buildDescriptionText fe
  let descWidth :=
    if isBold then availableDescWidth * BoldTextWidthFactor else availableDescWidth
  let descLines := WrapText adv descText descWidth
  let row : RowData :=
    { Element := fe
      NameLines := nameLines
      TypeLines := typeLines
      DescLines := descLines
      RowHeight := 0
      IsRoot := index = 0
      IsAlt := index % 2 = 1 }
  { row with RowHeight := calculateRowHeight row config }

/-- `prepareRows`: one `RowData` per flattened element, by index. -/
def prepareRows (adv : Char → ℚ) (flatElements : List FlatElement) (config : SVGConfig) :
    List RowData :=
  flatElements.enum.map fun (i, fe) => prepareRow adv fe i config

/-- `calculateTotalHeight`: title bar + header row + summed row heights +
`SVGHeightPadding`. -/
def calculateTotalHeight (rows : List RowData) (config : SVGConfig) : ℚ :=
  let contentHeight := rows.foldl (fun h row => h + row.RowHeight) 0
  config.TitleHeight + config.HeaderHeight + contentHeight + SVGHeightPadding

/-- `buildSVGHeader`: document header and style block (braces of the CSS
written with the `\x7b`/`\x7d` escapes). -/
def buildSVGHeader (totalWidth totalHeight : ℚ) (config : SVGConfig) : String :=
  "<?xml version=\"1.0\" encoding=\"UTF-8\"?>\n<svg xmlns=\"http://www.w3.org/2000/svg\" xmlns:xlink=\"http://www.w3.org/1999/xlink\"\n     width=\"" ++
  fmtF0 totalWidth ++ "\" height=\"" ++ fmtF0 totalHeight ++ "\" viewBox=\"0 0 " ++
  fmtF0 totalWidth ++ " " ++ fmtF0 totalHeight ++ "\">\n<defs>\n    <style>\n        .header-text \x7b font-family: " ++
  config.FontFamily ++ "; font-size: " ++ fmtF0 config.HeaderFontSize ++ "px; font-weight: bold; fill: " ++
  config.HeaderTextColor ++ "; \x7d\n        .cell-text \x7b font-family: " ++
  config.FontFamily ++ "; font-size: " ++ fmtF0 config.FontSize ++ "px; fill: " ++
  config.TextColor ++ "; \x7d\n        .link-text \x7b font-family: " ++
  config.FontFamily ++ "; font-size: " ++ fmtF0 config.FontSize ++ "px; fill: " ++
  config.LinkColor ++ "; cursor: pointer; \x7d\n        .not-used \x7b font-family: " ++
  config.FontFamily ++ "; font-size: " ++ fmtF0 config.FontSize ++ "px; fill: " ++
  config.NotUsedColor ++ "; font-style: italic; \x7d\n        .todo \x7b font-family: " ++
  config.FontFamily ++ "; font-size: " ++ fmtF0 config.FontSize ++ "px; fill: " ++
  config.TodoColor ++ "; font-weight: bold; \x7d\n        .flag-box \x7b font-family: " ++
  config.FontFamily ++ "; font-size: 10px; fill: " ++ config.TextColor ++
  "; \x7d\n        .title-text \x7b font-family: " ++ config.FontFamily ++
  "; font-size: 14px; font-weight: bold; fill: " ++ config.HeaderTextColor ++ "; \x7d\n    </style>\n"

/-- `buildClipPaths`: one clip-path per column, spanning the full height. -/
def buildClipPaths (colWidths : ColumnWidths) (totalHeight : ℚ) (_config : SVGConfig) :
    String :=
  let colStarts := [0, colWidths.Name, colWidths.Name + colWidths.Flags,
    colWidths.Name + colWidths.Flags + colWidths.Cardinality,
    colWidths.Name + colWidths.Flags + colWidths.Cardinality + colWidths.TypeCol]
  let widths := [colWidths.Name, colWidths.Flags, colWidths.Cardinality,
    colWidths.TypeCol, colWidths.DescCol]
  let names := ["name", "flags", "card", "type", "desc"]
  String.join <| (names.zip (colStarts.zip widths)).map fun (nm, st, w) =>
    "    <clipPath id=\"clip-" ++ nm ++ "\"><rect x=\"" ++ fmtF0 st ++
      "\" y=\"0\" width=\"" ++ fmtF0 w ++ "\" height=\"" ++ fmtF0 totalHeight ++
      "\"/></clipPath>\n"

/-- `buildTitleBar`. -/
def buildTitleBar (totalWidth : ℚ) (config : SVGConfig) : String :=
  "<rect x=\"0\" y=\"0\" width=\"" ++ fmtF0 totalWidth ++ "\" height=\"" ++
    fmtF0 config.TitleHeight ++ "\" fill=\"" ++ config.HeaderBgColor ++ "\" stroke=\"" ++
    config.BorderColor ++ "\"/>\n<text x=\"" ++ fmtF0 config.Padding ++ "\" y=\"" ++
    fmtF0 (config.TitleHeight / 2 + TitleVerticalOffset) ++
    "\" class=\"title-text\">Structure</text>\n"

/-- The row loop of `buildDataRows`, advancing `currentY` by each row's
height. -/
def buildDataRowsLoop (totalWidth : ℚ) (config : SVGConfig) :
    ℚ → List RowData → String
  | _, [] => ""
  | currentY, row :: rest =>
    renderDataRowWrapped row config currentY totalWidth ++
    buildDataRowsLoop totalWidth config (currentY + row.RowHeight) rest

/-- `buildDataRows`: all data rows, starting below title bar and header. -/
def buildDataRows (rows : List RowData) (totalWidth : ℚ) (config : SVGConfig) : String :=
  buildDataRowsLoop totalWidth config (config.TitleHeight + config.HeaderHeight) rows

/-- `buildSVG`: header, clip paths, title bar, header row, data rows. -/
def buildSVG (rows : List RowData) (colWidths : ColumnWidths) (totalHeight : ℚ)
    (config : SVGConfig) : String :=
  let totalWidth := colWidths.Total
  buildSVGHeader totalWidth totalHeight config ++
  buildClipPaths colWidths totalHeight config ++
  "</defs>\n" ++
  buildTitleBar totalWidth config ++
  renderHeaderRow config config.TitleHeight totalWidth ++
  buildDataRows rows totalWidth config ++
  "</svg>"

/-- `renderFallback` from `renderer/svg.go`: the fixed diagnostic document
returned when the font cannot be initialized. -/
def renderFallback : String :=
  "<?xml version=\"1.0\" encoding=\"UTF-8\"?>\n<svg xmlns=\"http://www.w3.org/2000/svg\" width=\"400\" height=\"100\">\n<text x=\"10\" y=\"50\" font-family=\"Arial\" font-size=\"14\">Error: Could not load font for text measurement</text>\n</svg>"

/-- `Render` from `renderer/svg.go`.  `NewTextMeasurer` parses the
embedded font in the external font library; its outcome is passed as
`tm` (`none` models the error case, `some adv` a measurer with advance
table `adv`). -/
def Render (tm : Option (Char → ℚ)) (resource : ResourceDefinition)
    (config : SVGConfig) : String :=
  match tm with
  | none => renderFallback
  | some adv =>
    let config := { config with NameColWidth := calculateNameColumnWidth adv resource config }
    let rows := prepareRows adv resource.Flatten config
    let colWidths : ColumnWidths :=
      { Name := config.NameColWidth
        Flags := config.FlagsColWidth
        Cardinality := config.CardinalityColWidth
        TypeCol := config.TypeColWidth
        DescCol := config.DescriptionColWidth }
    let totalHeight := calculateTotalHeight rows config
    buildSVG rows colWidths totalHeight config

/-! ## The spec-side description builder (for the C4 refinement) -/

/-- The description cell per the spec sentence (amended): start from the
element's description; substitute the placeholder when usage is
"not-used" and the description is empty; for usage "todo" flag bold and
add the `TODO: ` marker unless the text already begins with `TODO`;
append the notes after a `" - "` separator when notes are present and
usage is not "not-used" (no separator when the text so far is empty). -/
def descriptionTextSpec (e : Element) : String × Bool :=
  let base :=
    if e.usage = "not-used" ∧ e.description = "" then UnusedElementLabel
    else e.description
  let text :=
    if e.usage = "todo" ∧ ¬ strStartsWith base "TODO" then "TODO: " ++ base else base
  let bold := e.usage = "todo"
  let withNotes :=
    if e.notes ≠ "" ∧ e.usage ≠ "not-used" then
      if text = "" then e.notes else text ++ " - " ++ e.notes
    else text
  (withNotes, decide bold)

/-! ## Sample inputs used by witnesses and counterexamples -/

/-- A constant advance table: every glyph is 7 pixels wide. -/
def adv7 : Char → ℚ := fun _ => 7

/-- A leaf child element named "a" with no extensions of its own. -/
def childA : Element := .mk "a" [] "0..1" "string" "" "" "" "" none [] []

/-- Two root-level extensions. -/
def extE1 : Extension := ⟨"e1", "http://x/e1", "R", "string", "0..1", "d1"⟩
def extE2 : Extension := ⟨"e2", "http://x/e2", "R", "string", "0..1", "d2"⟩

/-- A root with one child element and two root-level extensions. -/
def resRC : ResourceDefinition :=
  { resourceType := ""
    name := "R"
    flags := []
    type := "DomainResource"
    description := ""
    elements := [childA]
    extensions := [extE1, extE2] }

/-- A minimal root: no children, no extensions. -/
def resMin : ResourceDefinition :=
  { resourceType := ""
    name := "M"
    flags := []
    type := "DomainResource"
    description := ""
    elements := []
    extensions := [] }

/-- The flattened row that `Flatten` emits for `childA` inside `resRC`. -/
def feLastChild : FlatElement :=
  { element := childA, depth := 1, isLast := true, parentLasts := [], path := "R.a" }

/-- A flat element whose description already starts with `TODO` but not
with `TODO:`. -/
def feTodoLater : FlatElement :=
  { element := .mk "x" [] "0..1" "string" "" "TODO later" "todo" "" none [] []
    depth := 1
    isLast := true
    parentLasts := []
    path := "R.x" }

/-- Under `adv7` every string measures 7 pixels per character. -/
theorem measure_adv7 (s : String) : MeasureString adv7 s = 7 * s.length := by
  simp only [MeasureString]
  rw [show adv7 = fun _ => (7:ℚ) from rfl, List.map_const', List.sum_replicate,
    nsmul_eq_mul, mul_comm]
  rfl

/-! ## C5: icon selection precedence -/

/-- C5: icon selection yields exactly one icon (the selector is a total
function) with the precedence root → BackboneElement → Extension →
`[x]` suffix → `Reference` prefix → has-children → element; in
particular a type that both begins with `Reference` and ends in `[x]`
gets the choice icon. -/
theorem getIconTypeForElement_precedence (t : String) (hc : Bool) :
    GetIconTypeForElement t true hc = IconResource ∧
    GetIconTypeForElement "BackboneElement" false hc = IconBackboneElement ∧
    GetIconTypeForElement "Extension" false hc = IconExtension ∧
    (t ≠ "BackboneElement" → t ≠ "Extension" → strEndsWith t "[x]" = true →
      GetIconTypeForElement t false hc = IconChoice) ∧
    (t ≠ "BackboneElement" → t ≠ "Extension" → strEndsWith t "[x]" = false →
      strStartsWith t "Reference" = true →
      GetIconTypeForElement t false hc = IconReference) ∧
    (t ≠ "BackboneElement" → t ≠ "Extension" → strEndsWith t "[x]" = false →
      strStartsWith t "Reference" = false →
      GetIconTypeForElement t false hc = if hc then IconBackboneElement else IconElement) ∧
    (strStartsWith t "Reference" = true → strEndsWith t "[x]" = true →
      GetIconTypeForElement t false hc = IconChoice) := by
  refine ⟨rfl, rfl, rfl, ?_, ?_, ?_, ?_⟩
  · intro h1 h2 h3
    simp [GetIconTypeForElement, h1, h2, h3]
  · intro h1 h2 h3 h4
    simp [GetIconTypeForElement, h1, h2, h3, h4]
  · intro h1 h2 h3 h4
    simp [GetIconTypeForElement, h1, h2, h3, h4]
  · intro h1 h2
    have hb : t ≠ "BackboneElement" := by
      rintro rfl; exact absurd h1 (by decide)
    have he : t ≠ "Extension" := by
      rintro rfl; exact absurd h1 (by decide)
    simp [GetIconTypeForElement, hb, he, h2]

/-- Witness for C5 at a concrete reference type. -/
theorem getIconTypeForElement_precedence_witness :
    GetIconTypeForElement "Reference(Patient)" false false = IconReference :=
  (getIconTypeForElement_precedence "Reference(Patient)" false).2.2.2.2.1
    (by decide) (by decide) (by decide) (by decide)

/-! ## C8: font-initialization failure returns the fixed diagnostic SVG -/

/-- C8: when font initialization fails, `Render` returns the fixed
400×100 diagnostic document without consulting the resource or the
configuration (hence without any text measurement), and in all cases it
returns a document string (it is a total function into `String`). -/
theorem render_fallback_on_font_failure (r r2 : ResourceDefinition)
    (c c2 : SVGConfig) :
    Render none r c = renderFallback ∧
    Render none r c = Render none r2 c2 ∧
    renderFallback =
      "<?xml version=\"1.0\" encoding=\"UTF-8\"?>\n<svg xmlns=\"http://www.w3.org/2000/svg\" width=\"400\" height=\"100\">\n<text x=\"10\" y=\"50\" font-family=\"Arial\" font-size=\"14\">Error: Could not load font for text measurement</text>\n</svg>" :=
  ⟨rfl, rfl, rfl⟩

/-! ## C9: determinism of `Render` -/

/-- C9: `Render` is a pure function of its inputs: two runs on identical
arguments are byte-identical, and the output depends on the measurer
only through the advance values themselves (there is no hidden state,
randomness, or clock in the embedding of the source). -/
theorem render_deterministic (tm : Option (Char → ℚ)) (r : ResourceDefinition)
    (c : SVGConfig) (adv adv2 : Char → ℚ) :
    Render tm r c = Render tm r c ∧
    ((∀ ch, adv ch = adv2 ch) → Render (some adv) r c = Render (some adv2) r c) := by
  refine ⟨rfl, fun h => ?_⟩
  rw [funext h]

/-- Witness for C9 on a concrete resource and measurer. -/
theorem render_deterministic_witness :
    Render (some adv7) resMin DefaultConfig = Render (some adv7) resMin DefaultConfig :=
  (render_deterministic (some adv7) resMin DefaultConfig adv7 adv7).2 (fun _ => rfl)

/-! ## C4: description cell construction -/

/-- C4 (amended): `buildDescriptionText` computes exactly the description
cell described by the spec, with the marker-presence test being for the
bare `TODO` (not for `TODO:`). -/
theorem buildDescriptionText_spec (fe : FlatElement) :
    buildDescriptionText fe = descriptionTextSpec fe.element := by
  unfold buildDescriptionText descriptionTextSpec
  by_cases h1 : fe.element.usage = "not-used"
  · have h2 : fe.element.usage ≠ "todo" := by rw [h1]; decide
    by_cases h3 : fe.element.description = "" <;>
      simp [h1, h2, h3]
  · by_cases h2 : fe.element.usage = "todo"
    · by_cases h4 : strStartsWith fe.element.description "TODO"
      · by_cases h5 : fe.element.notes = "" <;>
        by_cases h6 : fe.element.description = "" <;>
          simp_all [h1, h2, h4, h5, h6]
      · by_cases h5 : fe.element.notes = ""
        · simp_all [h1, h2, h4, h5]
        · have hne : "TODO: " ++ fe.element.description ≠ "" := by
            intro hx
            have hd := congrArg String.data hx
            simp at hd
          simp_all [h1, h2, h4, h5, hne, String.append_assoc]
    · by_cases h5 : fe.element.notes = "" <;>
      by_cases h6 : fe.element.description = "" <;>
        simp_all [h1, h2, h5, h6]

/-- C4 counterexample: with usage "todo" and a description that begins
with `TODO` but not with the `TODO:` marker, the code leaves the text
unchanged, so no `TODO:` marker is present in the result even though the
claim requires one to be added. -/
theorem buildDescriptionText_todo_marker_counterexample :
    (buildDescriptionText feTodoLater).1 = "TODO later" ∧
    strStartsWith (buildDescriptionText feTodoLater).1 "TODO:" = false := by
  decide

/-! ## C6: one row per node plus one row per extension -/

theorem extensionRows_length (exts : List Extension) (d : Nat) (pl : List Bool)
    (p : String) (il : Bool) :
    (extensionRows exts d pl p il).length = exts.length := by
  induction exts with
  | nil => rfl
  | cons e rest ih => simp [extensionRows, ih]

theorem rootExtensionRows_length (exts : List Extension) (b : Bool) :
    (rootExtensionRows exts b).length = exts.length := by
  induction exts with
  | nil => rfl
  | cons e rest ih => simp [rootExtensionRows, ih]

theorem flattenElements_length (els : List Element) (d : Nat) (pl : List Bool)
    (pp : String) (pil : Bool) :
    (flattenElements els d pl pp pil).length = countNodes els + countExtensions els := by
  induction els, d, pl, pp, pil using flattenElements.induct with
  | case1 => simp [flattenElements, countNodes, countExtensions]
  | case2 n fl card ty tr dd u no b els exts rest depth pl pp pil isL pth npl ihEls ihRest =>
    simp only [flattenElements]
    by_cases hels : els.isEmpty
    · have h0 : els = [] := by simpa using hels
      subst h0
      simp [extensionRows_length, ihRest, countNodes, countExtensions, flattenElements]
      omega
    · simp [hels, extensionRows_length, ihEls, ihRest, countNodes, countExtensions]
      omega

/-- C6: `Flatten` emits exactly one row per node (the root plus every
nested element) and one row per extension (the root's plus every
element's, at every level). -/
theorem flatten_row_count (r : ResourceDefinition) :
    r.Flatten.length =
      (1 + countNodes r.elements) + (r.extensions.length + countExtensions r.elements) := by
  simp [ResourceDefinition.Flatten, flattenElements_length, rootExtensionRows_length]
  omega

/-! ## C10: ancestor-vector bounds and tree-line index safety -/

theorem extensionRows_mem (exts : List Extension) (d : Nat) (pl : List Bool)
    (p : String) (il : Bool) :
    ∀ fe ∈ extensionRows exts d pl p il, fe.parentLasts = pl ∧ fe.depth = d := by
  induction exts with
  | nil => intro fe hfe; simp [extensionRows] at hfe
  | cons e rest ih =>
    intro fe hfe
    rcases List.mem_cons.mp hfe with h | h
    · subst h; exact ⟨rfl, rfl⟩
    · exact ih fe h

theorem rootExtensionRows_mem (exts : List Extension) (b : Bool) :
    ∀ fe ∈ rootExtensionRows exts b, fe.parentLasts = [b] ∧ fe.depth = 1 := by
  induction exts with
  | nil => intro fe hfe; simp [rootExtensionRows] at hfe
  | cons e rest ih =>
    intro fe hfe
    rcases List.mem_cons.mp hfe with h | h
    · subst h; exact ⟨rfl, rfl⟩
    · exact ih fe h

/-- Invariant of the recursion: when the incoming ancestor vector has
length `d - 1`, every emitted row's ancestor vector is no longer than
its depth. -/
theorem flattenElements_parentLasts (els : List Element) (d : Nat) (pl : List Bool)
    (pp : String) (pil : Bool) :
    pl.length + 1 = d →
    ∀ fe ∈ flattenElements els d pl pp pil, fe.parentLasts.length ≤ fe.depth := by
  induction els, d, pl, pp, pil using flattenElements.induct with
  | case1 => intro _ fe hfe; simp [flattenElements] at hfe
  | case2 n fl card ty tr dd u no b els exts rest depth pl pp pil isL pth npl ihEls ihRest =>
    intro hd fe hfe
    have hnpl : npl = pl ++ [pil] := rfl
    simp only [flattenElements, List.mem_append, List.mem_cons] at hfe
    rcases hfe with ((h | h) | h) | h
    · subst h; simp; omega
    · by_cases hels : els.isEmpty
      · simp [hels] at h
      · exact ihEls (by simp [hnpl]; omega) fe (by simpa [hels] using h)
    · obtain ⟨h1, h2⟩ := extensionRows_mem _ _ _ _ _ fe h
      simp [h1, h2, hnpl]
      omega
    · exact ihRest hd fe h

/-- `RenderTreeLines` reads the ancestor vector only below index
`depth - 1` (and within bounds): its output is unchanged when the vector
is truncated to its first `depth - 1` entries. -/
theorem renderTreeLines_take (x y rh fly : ℚ) (depth : Nat) (pl : List Bool)
    (il : Bool) (style : TreeLineStyle) :
    RenderTreeLines x y rh fly depth pl il style =
      RenderTreeLines x y rh fly depth (pl.take (depth - 1)) il style := by
  unfold RenderTreeLines
  by_cases h0 : depth = 0
  · simp [h0]
  · simp only [h0, if_false]
    congr 2
    refine congrArg String.join (List.map_congr_left ?_)
    intro i hi
    have hin : i < depth - 1 := List.mem_range.mp hi
    have hlen : decide (i < (pl.take (depth - 1)).length) = decide (i < pl.length) := by
      simp only [decide_eq_decide, List.length_take]
      omega
    have hgetD : (pl.take (depth - 1)).getD i true = pl.getD i true := by
      simp [List.getD_eq_getElem?_getD, List.getElem?_take, hin]
    rw [hlen, hgetD]

/-- C10: every flattened row's ancestor vector is at most as long as the
row's depth, and the tree-line renderer depends only on the entries of
the vector at indices below `depth - 1` that are in bounds (the Go loop
guard `i < depth-1 && i < len(parentLasts)`), so connector computation
never indexes the vector out of bounds for any flattened row. -/
theorem tree_lines_index_safety :
    (∀ (r : ResourceDefinition), ∀ fe ∈ r.Flatten, fe.parentLasts.length ≤ fe.depth) ∧
    (∀ (x y rh fly : ℚ) (depth : Nat) (pl : List Bool) (il : Bool) (style : TreeLineStyle),
      RenderTreeLines x y rh fly depth pl il style =
        RenderTreeLines x y rh fly depth (pl.take (depth - 1)) il style) := by
  constructor
  · intro r fe hfe
    simp only [ResourceDefinition.Flatten, List.mem_append, List.mem_cons] at hfe
    rcases hfe with (h | h) | h
    · subst h; simp
    · exact flattenElements_parentLasts _ _ _ _ _ (by simp) fe h
    · obtain ⟨h1, h2⟩ := rootExtensionRows_mem _ _ fe h
      simp [h1, h2]
  · exact renderTreeLines_take

/-- Witness for C10 at the single row flattened from `resMin`. -/
theorem tree_lines_index_safety_witness :
    ({ element := .mk "M" [] "" "DomainResource" "" "" "" "" none [] [],
       depth := 0, isLast := true, parentLasts := [], path := "M" } : FlatElement).parentLasts.length ≤
      ({ element := .mk "M" [] "" "DomainResource" "" "" "" "" none [] [],
         depth := 0, isLast := true, parentLasts := [], path := "M" } : FlatElement).depth :=
  tree_lines_index_safety.1 resMin _
    (by simp [ResourceDefinition.Flatten, flattenElements, rootExtensionRows, resMin])

/-! ## C2: wrapped lines measure within the budget -/

/-- Invariant of the greedy loop: every line it emits either measures
within `maxWidth` or is one of the words in `F` (kept whole). -/
theorem wrapLoop_mem (adv : Char → ℚ) (W : ℚ) (F : List String) :
    ∀ (ws : List String) (lines : List String) (current : String),
      (∀ l ∈ lines, MeasureString adv l ≤ W ∨ l ∈ F) →
      (MeasureString adv current ≤ W ∨ current ∈ F) →
      (∀ w ∈ ws, w ∈ F) →
      ∀ l ∈ wrapLoop adv W lines current ws,
        MeasureString adv l ≤ W ∨ l ∈ F := by
  intro ws
  induction ws with
  | nil =>
    intro lines current hl hc _ l hmem
    simp only [wrapLoop] at hmem
    rcases List.mem_append.mp hmem with h | h
    · exact hl l h
    · have h0 := List.mem_singleton.mp h
      subst h0; exact hc
  | cons w rest ih =>
    intro lines current hl hc hws l hmem
    simp only [wrapLoop] at hmem
    by_cases ht : MeasureString adv (current ++ " " ++ w) ≤ W
    · rw [if_pos ht] at hmem
      exact ih lines _ hl (Or.inl ht)
        (fun u hu => hws u (List.mem_cons_of_mem _ hu)) l hmem
    · rw [if_neg ht] at hmem
      refine ih _ w ?_ (Or.inr (hws w (List.mem_cons_self _ _)))
        (fun u hu => hws u (List.mem_cons_of_mem _ hu)) l hmem
      intro u hu
      rcases List.mem_append.mp hu with h | h
      · exact hl u h
      · have h0 := List.mem_singleton.mp h
        subst h0; exact hc

/-- C2 (amended): every line of `WrapText text W` measures within `W`,
except a line that is one of the words of the text wider than `W`
(returned whole, unsplit), and except the single empty line produced
when the text has no words at all (which can exceed `W` only for a
negative `W`). -/
theorem wrapText_line_widths (adv : Char → ℚ) (text : String) (W : ℚ) :
    ∀ l ∈ WrapText adv text W,
      MeasureString adv l ≤ W ∨
      (l ∈ Fields text ∧ W < MeasureString adv l) ∨
      (l = "" ∧ Fields text = []) := by
  intro l hmem
  unfold WrapText at hmem
  by_cases h1 : text = ""
  · rw [if_pos h1] at hmem
    have h0 : l = "" := by simpa using hmem
    subst h0
    exact Or.inr (Or.inr ⟨rfl, by simp [h1, Fields, fieldsAux]⟩)
  · rw [if_neg h1] at hmem
    by_cases h2 : MeasureString adv text ≤ W
    · rw [if_pos h2] at hmem
      have h0 : l = text := by simpa using hmem
      subst h0; exact Or.inl h2
    · rw [if_neg h2] at hmem
      rcases hF : Fields text with _ | ⟨w, ws⟩
      · rw [hF] at hmem
        have h0 : l = "" := by simpa using hmem
        subst h0
        exact Or.inr (Or.inr ⟨rfl, rfl⟩)
      · rw [hF] at hmem
        have hres := wrapLoop_mem adv W (Fields text) ws [] w (by simp)
          (Or.inr (by rw [hF]; exact List.mem_cons_self _ _))
          (fun u hu => by rw [hF]; exact List.mem_cons_of_mem _ hu) l hmem
        rcases hres with h | h
        · exact Or.inl h
        · by_cases hle : MeasureString adv l ≤ W
          · exact Or.inl hle
          · exact Or.inr (Or.inl ⟨hF ▸ h, lt_of_not_le hle⟩)

/-- C2 counterexample: at the empty text and width `-1` the single
returned line `""` measures `0 > -1` yet is not a word of the text, so
the claim's disjunction fails as stated for a negative width. -/
theorem wrapText_negative_width_counterexample :
    WrapText adv7 "" (-1) = [""] ∧
    ¬ (MeasureString adv7 "" ≤ -1 ∨
        ("" ∈ Fields "" ∧ (-1 : ℚ) < MeasureString adv7 "")) := by
  decide

/-- Witness for C2 on a two-word text wrapped at width 20. -/
theorem wrapText_line_widths_witness :
    MeasureString adv7 "aa" ≤ 20 ∨
    ("aa" ∈ Fields "aa bb" ∧ (20 : ℚ) < MeasureString adv7 "aa") ∨
    ("aa" = "" ∧ Fields "aa bb" = []) :=
  wrapText_line_widths adv7 "aa bb" 20 "aa" (by
    have hf : Fields "aa bb" = ["aa", "bb"] := by decide
    have hμ : ¬ MeasureString adv7 "aa bb" ≤ 20 := by
      rw [measure_adv7, show ("aa bb".length) = 5 from rfl]; norm_num
    have ht : ¬ MeasureString adv7 ("aa" ++ " " ++ "bb") ≤ 20 := by
      rw [measure_adv7, show (("aa" ++ " " ++ "bb").length) = 5 from rfl]; norm_num
    unfold WrapText
    rw [if_neg (by decide : ¬ ("aa bb" = "")), if_neg hμ, hf]
    unfold wrapLoop
    rw [if_neg ht]
    unfold wrapLoop
    simp)

/-! ## C3: truncation with ellipsis -/

/-- With nonnegative advances, prefix measure is monotone in the prefix
length — the property the binary search of `TruncateText` relies on. -/
theorem sum_take_mono (adv : Char → ℚ) (hnn : ∀ c, 0 ≤ adv c) (l : List Char)
    {i j : Nat} (hij : i ≤ j) :
    MeasureString adv (String.mk (l.take i)) ≤ MeasureString adv (String.mk (l.take j)) := by
  show ((l.take i).map adv).sum ≤ ((l.take j).map adv).sum
  have h1 : l.take i = (l.take j).take i := by rw [List.take_take, min_eq_left hij]
  rw [h1]
  generalize l.take j = m
  calc ((m.take i).map adv).sum
      ≤ ((m.take i).map adv).sum + ((m.drop i).map adv).sum := by
        refine le_add_of_nonneg_right (List.sum_nonneg ?_)
        intro x hx
        obtain ⟨c, _, rfl⟩ := List.mem_map.mp hx
        exact hnn c
    _ = ((m.take i ++ m.drop i).map adv).sum := by rw [List.map_append, List.sum_append]
    _ = (m.map adv).sum := by rw [List.take_append_drop]

/-- Correctness of the binary search in `TruncateText`: starting from a
fitting lower bound and an upper bound dominating every fitting length,
it returns a fitting length that dominates every fitting length. -/
theorem truncSearch_spec (adv : Char → ℚ) (runes : List Char) (avail : ℚ)
    (hnn : ∀ c, 0 ≤ adv c) :
    ∀ (low high : Nat), low ≤ high → high ≤ runes.length →
      MeasureString adv (String.mk (runes.take low)) ≤ avail →
      (∀ j, j ≤ runes.length → MeasureString adv (String.mk (runes.take j)) ≤ avail → j ≤ high) →
      low ≤ truncSearch adv runes avail low high ∧
      truncSearch adv runes avail low high ≤ high ∧
      MeasureString adv (String.mk (runes.take (truncSearch adv runes avail low high))) ≤ avail ∧
      (∀ j, j ≤ runes.length →
        MeasureString adv (String.mk (runes.take j)) ≤ avail →
        j ≤ truncSearch adv runes avail low high) := by
  intro low high
  induction low, high using truncSearch.induct adv runes avail with
  | case1 low high hlt mid hfits ih =>
    intro hlh hhn hlow hupper
    have hmid : mid = (low + high + 1) / 2 := rfl
    have h1 : mid ≤ high := by omega
    have h2 : low < mid := by omega
    obtain ⟨i1, i2, i3, i4⟩ := ih h1 hhn hfits hupper
    rw [truncSearch, dif_pos hlt, if_pos hfits, ← hmid]
    exact ⟨by omega, i2, i3, i4⟩
  | case2 low high hlt mid hfits ih =>
    intro hlh hhn hlow hupper
    have hmid : mid = (low + high + 1) / 2 := rfl
    have h2 : low < mid := by omega
    have h1 : mid ≤ high := by omega
    have hupper2 : ∀ j, j ≤ runes.length →
        MeasureString adv (String.mk (runes.take j)) ≤ avail → j ≤ mid - 1 := by
      intro j hj hfj
      by_contra hc
      push_neg at hc
      have hmj : mid ≤ j := by omega
      exact hfits (le_trans (sum_take_mono adv hnn runes hmj) hfj)
    obtain ⟨i1, i2, i3, i4⟩ := ih (by omega) (by omega) hlow hupper2
    rw [truncSearch, dif_pos hlt, if_neg hfits, ← hmid]
    exact ⟨i1, by omega, i3, i4⟩
  | case3 low high hlt =>
    intro hlh hhn hlow hupper
    rw [truncSearch, dif_neg hlt]
    refine ⟨le_refl _, hlh, hlow, ?_⟩
    intro j hj hfj
    have := hupper j hj hfj
    omega

/-- C3 (amended): empty text is returned unchanged; text that fits is
returned unchanged; otherwise, with the ellipsis width reserved, when no
non-empty rune-count prefix fits the result is just `"..."`, and when a
longest fitting non-empty prefix of `k` runes exists the result is that
prefix followed by `"..."`.  (Positive per-glyph advances, as with a real
font, make the `avail ≤ 0` early exit agree with "no non-empty prefix
fits".) -/
theorem truncateText_spec (adv : Char → ℚ) (hpos : ∀ c, 0 < adv c)
    (text : String) (maxWidth : ℚ) :
    (text = "" → TruncateText adv text maxWidth = "") ∧
    (MeasureString adv text ≤ maxWidth → TruncateText adv text maxWidth = text) ∧
    (text ≠ "" → ¬ MeasureString adv text ≤ maxWidth →
      ((∀ k, 1 ≤ k → k ≤ text.data.length →
          ¬ MeasureString adv (String.mk (text.data.take k)) ≤
            maxWidth - MeasureString adv "...") →
        TruncateText adv text maxWidth = "...") ∧
      (∀ k, 1 ≤ k → k ≤ text.data.length →
        MeasureString adv (String.mk (text.data.take k)) ≤
          maxWidth - MeasureString adv "..." →
        (∀ j, j ≤ text.data.length →
          MeasureString adv (String.mk (text.data.take j)) ≤
            maxWidth - MeasureString adv "..." → j ≤ k) →
        TruncateText adv text maxWidth = String.mk (text.data.take k) ++ "...")) := by
  have hnn : ∀ c, 0 ≤ adv c := fun c => (hpos c).le
  refine ⟨?_, ?_, ?_⟩
  · intro h; unfold TruncateText; rw [if_pos h]
  · intro h
    by_cases h0 : text = ""
    · unfold TruncateText; rw [if_pos h0, h0]
    · unfold TruncateText; rw [if_neg h0, if_pos h]
  · intro hne hfit
    constructor
    · intro hnofit
      unfold TruncateText
      rw [if_neg hne, if_neg hfit]
      by_cases hav : maxWidth - MeasureString adv "..." ≤ 0
      · rw [if_pos hav]
      · rw [if_neg hav]
        have h0fit : MeasureString adv (String.mk (text.data.take 0)) ≤
            maxWidth - MeasureString adv "..." := by
          have hz : MeasureString adv (String.mk (text.data.take 0)) = 0 := by
            simp [MeasureString]
          rw [hz]
          linarith [not_le.mp hav]
        obtain ⟨i1, i2, i3, i4⟩ := truncSearch_spec adv text.data
          (maxWidth - MeasureString adv "...") hnn 0 text.data.length
          (Nat.zero_le _) (le_refl _) h0fit (fun j hj _ => hj)
        have hz : truncSearch adv text.data (maxWidth - MeasureString adv "...") 0
            text.data.length = 0 := by
          by_contra hc
          exact hnofit _ (by omega) i2 i3
        rw [if_pos hz]
    · intro k hk1 hkn hkfit hkmax
      have havail : 0 < maxWidth - MeasureString adv "..." := by
        have hpos2 : 0 < MeasureString adv (String.mk (text.data.take k)) := by
          obtain ⟨c, cs, hcs⟩ : ∃ c cs, text.data = c :: cs := by
            cases hd : text.data with
            | nil =>
              exfalso
              apply hne
              cases text
              simp_all
            | cons c cs => exact ⟨c, cs, rfl⟩
          rw [hcs]
          cases k with
          | zero => omega
          | succ k2 =>
            show 0 < ((List.take (k2+1) (c :: cs)).map adv).sum
            simp only [List.take_succ_cons, List.map_cons, List.sum_cons]
            have : 0 ≤ ((List.take k2 cs).map adv).sum := by
              refine List.sum_nonneg ?_
              intro x hx
              obtain ⟨ch, _, rfl⟩ := List.mem_map.mp hx
              exact hnn ch
            linarith [hpos c]
        linarith
      unfold TruncateText
      rw [if_neg hne, if_neg hfit, if_neg (by linarith : ¬ maxWidth - MeasureString adv "..." ≤ 0)]
      have h0fit : MeasureString adv (String.mk (text.data.take 0)) ≤
          maxWidth - MeasureString adv "..." := by
        have hz : MeasureString adv (String.mk (text.data.take 0)) = 0 := by
          simp [MeasureString]
        rw [hz]
        linarith
      obtain ⟨i1, i2, i3, i4⟩ := truncSearch_spec adv text.data
        (maxWidth - MeasureString adv "...") hnn 0 text.data.length
        (Nat.zero_le _) (le_refl _) h0fit (fun j hj _ => hj)
      have hrk : truncSearch adv text.data (maxWidth - MeasureString adv "...") 0
          text.data.length = k := by
        have h1 := i4 k hkn hkfit
        have h2 := hkmax _ i2 i3
        omega
      rw [if_neg (by omega), hrk]

/-- C3 counterexample: at the empty text and `maxWidth = -1` the code
returns `""` before measuring, although the text's width `0` exceeds
`-1` and the claim then requires the result `"..."`. -/
theorem truncateText_empty_negative_counterexample :
    TruncateText adv7 "" (-1) = "" ∧ ¬ MeasureString adv7 "" ≤ -1 ∧ ("" : String) ≠ "..." := by
  refine ⟨rfl, ?_, by decide⟩
  rw [measure_adv7, show ("".length) = 0 from rfl]
  norm_num

/-- Witness for C3 on a fitting text. -/
theorem truncateText_spec_witness :
    TruncateText adv7 "ab" 28 = "ab" :=
  (truncateText_spec adv7 (fun _ => by norm_num [adv7]) "ab" 28).2.1
    (by rw [measure_adv7, show ("ab".length) = 2 from rfl]; norm_num)

/-! ## C1: the "is last" flag and trailing extensions -/

/-- If the last element of a sibling list is a leaf without extensions,
its node row is the final row the recursion emits for that list, and it
is marked last. -/
theorem flattenElements_getLast (els : List Element) (c : Element) (d : Nat)
    (pl : List Bool) (pp : String) (pil : Bool) :
    els.getLast? = some c → c.elements = [] → c.extensions = [] →
    (flattenElements els d pl pp pil).getLast? =
      some { element := c, depth := d, isLast := true, parentLasts := pl,
             path := pp ++ "." ++ c.name } := by
  induction els with
  | nil => intro h _ _; simp at h
  | cons e rest ih =>
    intro hlast hel hex
    cases rest with
    | nil =>
      have hec : e = c := by simpa using hlast
      subst hec
      cases e with
      | mk n fl card ty tr dd u no b els exts =>
        have hel2 : els = [] := hel
        have hex2 : exts = [] := hex
        subst hel2; subst hex2
        simp [flattenElements, extensionRows, Element.name]
    | cons e2 rest2 =>
      have h2 : (e2 :: rest2).getLast? = some c := by
        rw [List.getLast?_cons_cons] at hlast; exact hlast
      have ihr := ih h2
      have hne : flattenElements (e2 :: rest2) d pl pp pil ≠ [] := by
        intro h0
        rw [h0] at ihr
        simp [hel, hex] at ihr
      cases e with
      | mk n fl card ty tr dd u no b els exts =>
        rw [flattenElements]
        rw [List.getLast?_append_of_ne_nil _ hne]
        exact ihr hel hex

/-- The node row emitted for the first element of any sibling suffix. -/
theorem flattenElements_head (e : Element) (rest : List Element) (d : Nat)
    (pl : List Bool) (pp : String) (pil : Bool) :
    (flattenElements (e :: rest) d pl pp pil).head? =
      some { element := e, depth := d, isLast := rest.isEmpty && e.extensions.isEmpty,
             parentLasts := pl, path := pp ++ "." ++ e.name } := by
  cases e with
  | mk n fl card ty tr dd u no b els exts =>
    rw [flattenElements]
    rfl

/-- C1 (amended): a node row's "is last" flag is `last-sibling AND no
extensions of its own` (the node's own trailing extension rows, one
level deeper, absorb the flag); and for a root with child elements and
two extensions the two extension rows are appended at depth 1 after all
child rows with the second marked last and the first not, while the
preceding last child row (a leaf without extensions) KEEPS its "is last"
flag — the root's extensions do not clear it. -/
theorem flatten_isLast_rule :
    (∀ (e : Element) (rest : List Element) (d : Nat) (pl : List Bool) (pp : String) (pil : Bool),
      (flattenElements (e :: rest) d pl pp pil).head? =
        some { element := e, depth := d, isLast := rest.isEmpty && e.extensions.isEmpty,
               parentLasts := pl, path := pp ++ "." ++ e.name }) ∧
    (∀ (r : ResourceDefinition) (x y : Extension) (c : Element),
      r.extensions = [x, y] → r.elements ≠ [] →
      r.elements.getLast? = some c → c.elements = [] → c.extensions = [] →
      r.Flatten =
        ({ element := .mk r.name r.flags "" r.type "" r.description "" "" none [] [],
           depth := 0, isLast := false, parentLasts := [], path := r.name } ::
         flattenElements r.elements 1 [] r.name false) ++
        [{ element := extElementRoot x, depth := 1, isLast := false,
           parentLasts := [false], path := x.context },
         { element := extElementRoot y, depth := 1, isLast := true,
           parentLasts := [false], path := y.context }] ∧
      (flattenElements r.elements 1 [] r.name false).getLast? =
        some { element := c, depth := 1, isLast := true, parentLasts := [],
               path := r.name ++ "." ++ c.name }) := by
  refine ⟨flattenElements_head, ?_⟩
  intro r x y c hexts hne hlast hel hex
  have hempty : r.elements.isEmpty = false := by
    cases h : r.elements with
    | nil => exact absurd h hne
    | cons _ _ => rfl
  constructor
  · unfold ResourceDefinition.Flatten
    rw [hexts, hempty]
    simp [rootExtensionRows, hempty]
  · exact flattenElements_getLast r.elements c 1 [] r.name false hlast hel hex

/-- C1 counterexample: for a root "R" with one leaf child "a" and two
extensions, the flattened rows are root, child, ext1, ext2 with flags
false/true/false/true — the child row IS marked last, refuting the
claim's "the preceding last child row is not". -/
theorem flatten_last_child_counterexample :
    resRC.Flatten.map (fun fe => (fe.element.name, fe.depth, fe.isLast)) =
      [("R", 0, false), ("a", 1, true), ("e1", 1, false), ("e2", 1, true)] ∧
    ¬ (∀ fe ∈ resRC.Flatten, fe.depth = 1 → fe.element.name = "a" → fe.isLast = false) := by
  constructor
  · simp [resRC, childA, extE1, extE2, ResourceDefinition.Flatten, flattenElements,
      extensionRows, rootExtensionRows, extElementRoot, Element.name]
  · intro h
    have hmem : feLastChild ∈ resRC.Flatten := by
      simp [resRC, childA, feLastChild, ResourceDefinition.Flatten, flattenElements,
        extensionRows, rootExtensionRows]
    have hfa := h _ hmem rfl rfl
    simp [feLastChild] at hfa

/-- Witness for C1: the scenario part applied to `resRC`. -/
theorem flatten_isLast_rule_witness :
    (flattenElements resRC.elements 1 [] resRC.name false).getLast? =
      some { element := childA, depth := 1, isLast := true, parentLasts := [],
             path := resRC.name ++ "." ++ childA.name } :=
  (flatten_isLast_rule.2 resRC extE1 extE2 childA rfl
    (by simp [resRC]) rfl rfl rfl).2

/-! ## C7: canvas dimensions -/

/-- The `contentHeight` loop of `calculateTotalHeight` sums the row
heights. -/
theorem rowHeights_foldl (rows : List RowData) :
    rows.foldl (fun h row => h + row.RowHeight) 0 = (rows.map RowData.RowHeight).sum := by
  have haux : ∀ (init : ℚ),
      rows.foldl (fun h row => h + row.RowHeight) init =
        init + (rows.map RowData.RowHeight).sum := by
    induction rows with
    | nil => intro init; simp
    | cons a l ih => intro init; simp [ih, add_assoc]
  simpa using haux 0

/-- C7: the emitted document's declared canvas width is the sum of the
five column widths (the computed name column plus the four fixed
columns), and its declared canvas height is title-bar height plus
header-row height plus the sum of all per-row heights plus the fixed
2-pixel bottom pad. -/
theorem render_canvas_dimensions (adv : Char → ℚ) (r : ResourceDefinition)
    (config : SVGConfig) :
    ∃ rest : String,
      Render (some adv) r config =
        "<?xml version=\"1.0\" encoding=\"UTF-8\"?>\n<svg xmlns=\"http://www.w3.org/2000/svg\" xmlns:xlink=\"http://www.w3.org/1999/xlink\"\n     width=\"" ++
        fmtF0 (calculateNameColumnWidth adv r config + config.FlagsColWidth +
          config.CardinalityColWidth + config.TypeColWidth + config.DescriptionColWidth) ++
        "\" height=\"" ++
        fmtF0 (config.TitleHeight + config.HeaderHeight +
          ((prepareRows adv r.Flatten
              { config with NameColWidth := calculateNameColumnWidth adv r config }).map
            RowData.RowHeight).sum + 2) ++
        rest := by
  exact ⟨_, by
    simp only [Render, buildSVG, buildSVGHeader, ColumnWidths.Total, calculateTotalHeight,
      SVGHeightPadding, rowHeights_foldl]
    simp only [String.append_assoc]
    rfl⟩

end FhirRenderer
